import Mathlib

/-!
Verification of the bom-message repository: a request/response messaging
layer over a broadcast channel (src/bom-message.ts) together with its
payload codec (src/data-converters.ts).

The development shallowly embeds the TypeScript source:
* dynamic JS values are the inductive `Value`;
* the payload codec (`encodeNestedFormData` / `decodeNestedFormData` and
  their helpers) is translated function by function, with the browser
  builtins `FileReader.readAsDataURL` and `atob` modelled as base64
  encode/decode over byte lists;
* the `Entity` class and its static registry are a `World` state record,
  with each method a state-passing function.
-/

namespace BomMessage

/-! ## Base64 (models the browser `btoa`-style encoding produced by
`FileReader.readAsDataURL`, and the forgiving `atob` decoder). Bytes are
`Nat`s below 256. -/

def b64Chars : List Char :=
  "ABCDEFGHIJKLMNOPQRSTUVWXYZabcdefghijklmnopqrstuvwxyz0123456789+/".toList

def b64EncChar (n : Nat) : Char := b64Chars.getD n 'A'

def b64DecVal (c : Char) : Option Nat := b64Chars.findIdx? (· == c)

/-- Base64 encoding of a byte list, with `=` padding (the payload of a
data URL produced by `FileReader.readAsDataURL`). -/
def b64encode : List Nat → List Char
  | [] => []
  | [b1] => [b64EncChar (b1 / 4), b64EncChar (b1 % 4 * 16), '=', '=']
  | [b1, b2] =>
      [b64EncChar (b1 / 4), b64EncChar (b1 % 4 * 16 + b2 / 16),
       b64EncChar (b2 % 16 * 4), '=']
  | b1 :: b2 :: b3 :: rest =>
      b64EncChar (b1 / 4) :: b64EncChar (b1 % 4 * 16 + b2 / 16) ::
      b64EncChar (b2 % 16 * 4 + b3 / 64) :: b64EncChar (b3 % 64) ::
      b64encode rest

/-- Core base64 decoding of a padding-free character list, in groups of
four; a trailing group of two or three characters yields one or two bytes
(low leftover bits discarded, as in the forgiving-base64 algorithm). -/
def b64decodeCore : List Char → Option (List Nat)
  | [] => some []
  | [_] => none
  | [a, b] => do
      let x ← b64DecVal a
      let y ← b64DecVal b
      some [x * 4 + y / 16]
  | [a, b, c] => do
      let x ← b64DecVal a
      let y ← b64DecVal b
      let z ← b64DecVal c
      some [x * 4 + y / 16, y % 16 * 16 + z / 4]
  | a :: b :: c :: d :: rest => do
      let x ← b64DecVal a
      let y ← b64DecVal b
      let z ← b64DecVal c
      let u ← b64DecVal d
      let tail ← b64decodeCore rest
      some ((x * 4 + y / 16) :: (y % 16 * 16 + z / 4) :: (z % 4 * 64 + u) :: tail)

/-- ASCII whitespace removed by forgiving-base64 decoding. -/
def isB64Ws (c : Char) : Bool :=
  c == ' ' || c == '\t' || c == '\n' || c == '\r' || c == '\x0c'

/-- Removal of one or two trailing `=` characters. -/
def stripB64Pad (cs : List Char) : List Char :=
  match cs.reverse with
  | '=' :: '=' :: r => r.reverse
  | '=' :: r => r.reverse
  | _ => cs

/-- The browser `atob` builtin (forgiving-base64 decode), returning the
byte list obtained by `charCodeAt` over its result; `none` models the
`InvalidCharacterError` it throws. -/
def atob (s : String) : Option (List Nat) :=
  let cs := s.toList.filter (fun c => !isB64Ws c)
  let cs := if cs.length % 4 == 0 then stripB64Pad cs else cs
  b64decodeCore cs

/-- The alphabet part of `b64encode`, without the `=` padding. -/
def b64encodeCore : List Nat → List Char
  | [] => []
  | [b1] => [b64EncChar (b1 / 4), b64EncChar (b1 % 4 * 16)]
  | [b1, b2] =>
      [b64EncChar (b1 / 4), b64EncChar (b1 % 4 * 16 + b2 / 16),
       b64EncChar (b2 % 16 * 4)]
  | b1 :: b2 :: b3 :: rest =>
      b64EncChar (b1 / 4) :: b64EncChar (b1 % 4 * 16 + b2 / 16) ::
      b64EncChar (b2 % 16 * 4 + b3 / 64) :: b64EncChar (b3 % 64) ::
      b64encodeCore rest

/-- The `=` padding appended by `b64encode`. -/
def b64pad : List Nat → List Char
  | [] => []
  | [_] => ['=', '=']
  | [_, _] => ['=']
  | _ :: _ :: _ :: rest => b64pad rest

/-! ## Dynamic JS values -/

/-- A `File` object: name, MIME type, content bytes. -/
structure BMFile where
  name : String
  mime : String
  bytes : List Nat
  deriving Repr, DecidableEq

/-- A value stored in a `FormData` entry: a string or a `File`. -/
inductive FormVal where
  | ftext (s : String)
  | ffile (f : BMFile)
  deriving Repr, DecidableEq

/-- A dynamic JS value as handled by the payload codec: JSON-ish scalars,
`File` and `FormData` objects, arrays, and plain objects (association
lists of own enumerable properties, unique keys, insertion order). -/
inductive Value where
  | vnull
  | vbool (b : Bool)
  | vnum (n : Int)
  | vstr (s : String)
  | vfile (f : BMFile)
  | vform (entries : List (String × FormVal))
  | varr (elems : List Value)
  | vobj (fields : List (String × Value))
  deriving Repr

/-- Property lookup on an object field list (`obj[key]`, first match). -/
def jsLookup (fields : List (String × Value)) (k : String) : Option Value :=
  match fields with
  | [] => none
  | (k', v) :: rest => if k' == k then some v else jsLookup rest k

/-- JS `Map.set` / object index-assignment semantics on an association
list: overwrite in place if the key exists, else append. -/
def jsMapSet {α : Type} (m : List (String × α)) (k : String) (v : α) :
    List (String × α) :=
  if m.any (fun p => p.1 == k) then
    m.map (fun p => if p.1 == k then (k, v) else p)
  else m ++ [(k, v)]

/-- JS string coercion `String(x)` as applied by `FormData.append` and the
`File` constructor; `none` stands for `undefined`. -/
def jsToStr : Option Value → String
  | none => "undefined"
  | some .vnull => "null"
  | some (.vbool true) => "true"
  | some (.vbool false) => "false"
  | some (.vnum n) => toString n
  | some (.vstr s) => s
  | some (.vfile _) => "[object File]"
  | some (.vform _) => "[object FormData]"
  | some (.varr _) => "[object Array]"
  | some (.vobj _) => "[object Object]"

/-- JS falsiness of a value (`!x`). -/
def jsFalsy : Value → Bool
  | .vnull => true
  | .vbool b => !b
  | .vnum n => n == 0
  | .vstr s => s == ""
  | _ => false

/-! ## Payload codec (src/data-converters.ts) -/

/-- JS `String.prototype.split` on a single-character separator. -/
def splitOnChar (sep : Char) : List Char → List (List Char)
  | [] => [[]]
  | c :: rest =>
    if c == sep then [] :: splitOnChar sep rest
    else
      match splitOnChar sep rest with
      | [] => [[c]]
      | h :: t => (c :: h) :: t

/-- First match of the regex in `decodeFile`: the text between the first
colon and the first semicolon after it, `none` when the pattern does not
occur (e.g. the MIME group of a data URL header). -/
def extractMime (cs : List Char) : Option String :=
  match cs.dropWhile (fun c => c != ':') with
  | [] => none
  | _ :: after =>
    if after.contains ';' then
      some (String.mk (after.takeWhile (fun c => c != ';')))
    else none

/-- `decodeFile` from src/data-converters.ts: parse a base64 data URL
into a `File`. `Except.error` models the exceptions it throws (including
the `atob` failure on invalid base64 payloads). -/
def decodeFile (base64String fileName : String) : Except String BMFile :=
  let parts := splitOnChar ',' base64String.toList
  let pfx := parts.headD []
  match parts.drop 1 with
  | [] => .error "Invalid Base64 string format."
  | b64Data :: _ =>
    if pfx.isEmpty || b64Data.isEmpty then .error "Invalid Base64 string format."
    else
      match extractMime pfx with
      | none => .error "Could not extract MIME type."
      | some mimeType =>
        match atob (String.mk b64Data) with
        | none => .error "InvalidCharacterError"
        | some bytes => .ok ⟨fileName, mimeType, bytes⟩

/-- `encodeFile` from src/data-converters.ts: the data URL produced by
`FileReader.readAsDataURL` (base64 content tagged with the MIME type; the
file name is not part of the data URL). -/
def encodeFileStr (f : BMFile) : String :=
  "data:" ++ f.mime ++ ";base64," ++ String.mk (b64encode f.bytes)

/-- `isEncodedFormDataItem`: a non-null object whose `dataType` property
is the string `"file"` or `"text"`. -/
def isEncodedFormDataItem (item : Value) : Bool :=
  match item with
  | .vobj fs =>
    match jsLookup fs "dataType" with
    | some (.vstr s) => s == "file" || s == "text"
    | _ => false
  | _ => false

/-- `isEncodedFormData`: a non-null object with `dataType == "formData"`
and an object-typed `items` property all of whose values are encoded
items. (`File`/`FormData` objects and arrays also have `typeof` object;
their `Object.values` are the listed elements, or empty.) -/
def isEncodedFormData (data : Value) : Bool :=
  match data with
  | .vobj fs =>
    (match jsLookup fs "dataType" with
     | some (.vstr s) => s == "formData"
     | _ => false) &&
    (match jsLookup fs "items" with
     | some (.vobj items) => items.all (fun p => isEncodedFormDataItem p.2)
     | some (.varr xs) => xs.all isEncodedFormDataItem
     | some (.vfile _) => true
     | some (.vform _) => true
     | _ => false)
  | _ => false

/-- Encoding of one `FormData` entry inside `encodeFormData`. -/
def encodeItem : FormVal → Value
  | .ffile f =>
      .vobj [("dataType", .vstr "file"), ("fileName", .vstr f.name),
             ("fileType", .vstr f.mime), ("fileSize", .vnum f.bytes.length),
             ("content", .vstr (encodeFileStr f))]
  | .ftext s => .vobj [("dataType", .vstr "text"), ("content", .vstr s)]

/-- Discriminator for text entries of a `FormData`. -/
def isTextVal : FormVal → Bool
  | .ftext _ => true
  | .ffile _ => false

/-- Discriminator for file entries of a `FormData`. -/
def isFileVal : FormVal → Bool
  | .ffile _ => true
  | .ftext _ => false

/-- One scheduling pass of `encodeFormData`: walk the entries in
`FormData` iteration order and perform the `items[key] = …` assignment
for those selected by `P`. -/
def encodeFormPass (P : FormVal → Bool) (entries : List (String × FormVal))
    (acc : List (String × Value)) : List (String × Value) :=
  entries.foldl (fun a q => if P q.2 then jsMapSet a q.1 (encodeItem q.2) else a) acc

/-- The `items` record built by `encodeFormData`. Its `forEach` callback
is async: a text item is assigned synchronously during the iteration
pass, while a file item is assigned only when its awaited content
promise resolves — after the iteration pass has finished (and before
`Promise.all` releases the function). So `items` receives all text keys
first, in entry order, then all file keys, in entry order. -/
def encodeFormItems (entries : List (String × FormVal)) :
    List (String × Value) :=
  encodeFormPass isFileVal entries (encodeFormPass isTextVal entries [])

/-- `encodeFormData` from src/data-converters.ts (its internal promise
batching is deterministic: every item is assigned before the function
returns). -/
def encodeFormData (entries : List (String × FormVal)) : Value :=
  .vobj [("dataType", .vstr "formData"), ("items", .vobj (encodeFormItems entries))]

/-- Property access `item[k]` for the item objects read by
`decodeFormData` (undefined on primitives). -/
def itemProp (item : Value) (k : String) : Option Value :=
  match item with
  | .vobj fs => jsLookup fs k
  | _ => none

/-- One entry of `decodeFormData`: a `dataType == "file"` item goes
through `decodeFile` (whose exceptions propagate — there is no catch in
`decodeFormData`); anything else is appended as text with JS string
coercion of its `content`. -/
def decodeFormDataItem (k : String) (item : Value) :
    Except String (String × FormVal) :=
  match itemProp item "dataType" with
  | some (.vstr "file") =>
    match itemProp item "content" with
    | some (.vstr content) =>
        (decodeFile content (jsToStr (itemProp item "fileName"))).map
          (fun f => (k, FormVal.ffile f))
    | _ => .error "TypeError: content.split is not a function"
  | _ => .ok (k, .ftext (jsToStr (itemProp item "content")))

/-- The `Object.entries` loop of `decodeFormData`; the first thrown
exception aborts the loop. -/
def decodeFormDataEntries : List (String × Value) →
    Except String (List (String × FormVal))
  | [] => .ok []
  | (k, v) :: rest => do
    let e ← decodeFormDataItem k v
    let es ← decodeFormDataEntries rest
    .ok (e :: es)

/-- `Object.entries` on a dynamic value: fields of an object, indexed
elements of an array, nothing for other object types. -/
def jsEntries : Value → List (String × Value)
  | .vobj fs => fs
  | .varr xs => xs.enum.map (fun p => (toString p.1, p.2))
  | _ => []

/-- `decodeFormData` from src/data-converters.ts: rebuild a `FormData`
from the `items` record of a detected `EncodedFormData` value. -/
def decodeFormData (encodedData : Value) : Except String Value := do
  let items := (match encodedData with
    | .vobj fs => jsLookup fs "items"
    | _ => none).getD .vnull
  let entries ← decodeFormDataEntries (jsEntries items)
  .ok (.vform entries)

mutual

/-- `encodeNestedFormData` from src/data-converters.ts: `File`s become
data URL strings, `FormData` becomes an `EncodedFormData` object, arrays
and objects are walked structurally, everything else passes through. -/
def encodeNestedFormData : Value → Value
  | .vfile f => .vstr (encodeFileStr f)
  | .vform entries => encodeFormData entries
  | .varr xs => .varr (encodeValueList xs)
  | .vobj fs => .vobj (encodeValueFields fs)
  | v => v

/-- `data.map(encodeNestedFormData)` over an array. -/
def encodeValueList : List Value → List Value
  | [] => []
  | x :: xs => encodeNestedFormData x :: encodeValueList xs

/-- The `Object.entries` loop of `encodeNestedFormData` (object keys are
unique, so indexed assignment is a per-key map). -/
def encodeValueFields : List (String × Value) → List (String × Value)
  | [] => []
  | (k, v) :: fs => (k, encodeNestedFormData v) :: encodeValueFields fs

end

mutual

/-- `decodeNestedFormData` from src/data-converters.ts. A string is first
tried as a data URL (`decodeFile`), with failures caught and the original
string returned; detected `EncodedFormData` objects are rebuilt (no catch
around that path); arrays and objects are walked structurally; `File` and
`FormData` inputs hit the generic object branch, whose `Object.entries`
is empty. `Except.error` models an uncaught exception. -/
def decodeNestedFormData (v : Value) : Except String Value :=
  match v with
  | .vstr s =>
    match decodeFile s "unknown-filename" with
    | .ok f => .ok (.vfile f)
    | .error _ => .ok (.vstr s)
  | .varr xs =>
    if isEncodedFormData (.varr xs) then decodeFormData (.varr xs)
    else (decodeValueList xs).map Value.varr
  | .vobj fs =>
    if isEncodedFormData (.vobj fs) then decodeFormData (.vobj fs)
    else (decodeValueFields fs).map Value.vobj
  | .vfile f =>
    if isEncodedFormData (.vfile f) then decodeFormData (.vfile f)
    else .ok (.vobj [])
  | .vform entries =>
    if isEncodedFormData (.vform entries) then decodeFormData (.vform entries)
    else .ok (.vobj [])
  | v => .ok v

/-- `data.map(decodeNestedFormData)` over an array (first exception
propagates). -/
def decodeValueList : List Value → Except String (List Value)
  | [] => .ok []
  | x :: xs => do
    let y ← decodeNestedFormData x
    let ys ← decodeValueList xs
    .ok (y :: ys)

/-- The `Object.entries` loop of `decodeNestedFormData`. -/
def decodeValueFields : List (String × Value) →
    Except String (List (String × Value))
  | [] => .ok []
  | (k, v) :: fs => do
    let y ← decodeNestedFormData v
    let ys ← decodeValueFields fs
    .ok ((k, y) :: ys)

end

/-! ## Supported payloads and the round-trip image

`supportedB` delimits the payload classes the spec calls supported, as
realizable in the code: JSON-safe scalars, strings that do not parse as
data URLs, binary blobs with non-empty byte content and a
comma/semicolon-free MIME type, form containers of those, and arrays and
objects of supported values whose shape cannot be mistaken for the
codec's own `EncodedFormData` tag. `roundTripImage` is what
`decodeNestedFormData ∘ encodeNestedFormData` actually produces on
supported values: the identity, except that standalone blobs come back
named `"unknown-filename"`. -/

/-- `Except.isOk`-style test. -/
def exceptIsOk {ε α : Type} : Except ε α → Bool
  | .ok _ => true
  | .error _ => false

/-- Unique keys in an association list. -/
def nodupKeysB {α : Type} : List (String × α) → Bool
  | [] => true
  | (k, _) :: rest => rest.all (fun p => !(p.1 == k)) && nodupKeysB rest

/-- A blob the codec transports faithfully: non-empty content, bytes
below 256, and a MIME type free of the data URL delimiters. -/
def goodFileB (f : BMFile) : Bool :=
  !f.bytes.isEmpty && f.bytes.all (fun b => b < 256) &&
  f.mime.toList.all (fun c => !(c == ',') && !(c == ';'))

mutual

/-- The supported payload class (see section comment). -/
def supportedB : Value → Bool
  | .vnull => true
  | .vbool _ => true
  | .vnum _ => true
  | .vstr s => !exceptIsOk (decodeFile s "unknown-filename")
  | .vfile f => goodFileB f
  | .vform entries =>
      nodupKeysB entries &&
      entries.all (fun p =>
        match p.2 with
        | .ffile f => goodFileB f
        | .ftext _ => true)
  | .varr xs => supportedList xs
  | .vobj fs =>
      nodupKeysB fs &&
      (match jsLookup fs "dataType" with
       | some (.vstr s) => !(s == "formData")
       | _ => true) &&
      supportedFields fs

def supportedList : List Value → Bool
  | [] => true
  | x :: xs => supportedB x && supportedList xs

def supportedFields : List (String × Value) → Bool
  | [] => true
  | (_, v) :: fs => supportedB v && supportedFields fs

end

mutual

/-- What decode-after-encode actually returns on supported values. -/
def roundTripImage : Value → Value
  | .vfile f => .vfile ⟨"unknown-filename", f.mime, f.bytes⟩
  | .vform entries =>
      .vform (entries.filter (fun q => isTextVal q.2) ++
        entries.filter (fun q => isFileVal q.2))
  | .varr xs => .varr (roundTripImageList xs)
  | .vobj fs => .vobj (roundTripImageFields fs)
  | v => v

def roundTripImageList : List Value → List Value
  | [] => []
  | x :: xs => roundTripImage x :: roundTripImageList xs

def roundTripImageFields : List (String × Value) → List (String × Value)
  | [] => []
  | (k, v) :: fs => (k, roundTripImage v) :: roundTripImageFields fs

end

/-! ## The Entity system (src/bom-message.ts)

The `Entity` class and its static registry are modelled as a `World`
record. Every `Entity` object ever constructed lives in `World.entities`
(JS objects outlive their registry entry); an object is identified by its
index in that list (its token). `Entity.instances` is the association
list `registry` mapping ids to tokens. `crypto.randomUUID` is modelled as
an injective fresh-string generator driven by a counter, and `Date.now`
as the `now` field. Promise resolvers are identified by `Nat` tokens;
resolving a pending request is recorded as an observable event rather
than mutating a promise. -/

/-- The per-instance state of one `Entity` object. -/
structure EntityState where
  eid : String
  handlers : List Nat
  pendingRequests : List (String × Nat)
  deriving Repr, DecidableEq

instance : Inhabited EntityState := ⟨⟨"", [], []⟩⟩

/-- A validated wire envelope (`MessageData` in the source); `kind`
mirrors the `type` field. -/
structure MessageData where
  via : String
  kind : String
  messageId : String
  fromId : String
  toId : String
  payload : Value
  timestamp : Int
  deriving Repr

/-- The process-wide state: all `Entity` objects ever constructed plus
the static registry fields of the `Entity` class. -/
structure World where
  entities : List EntityState
  registry : List (String × Nat)
  ignoredIds : List String
  isInitialized : Bool
  hasEmitter : Bool
  listenerAttached : Bool
  nextUuid : Nat
  nextResolver : Nat
  sent : List MessageData
  now : Int
  deriving Repr

/-- The pristine module state before any call. -/
def initialWorld : World :=
  { entities := [], registry := [], ignoredIds := [], isInitialized := false,
    hasEmitter := false, listenerAttached := false, nextUuid := 0,
    nextResolver := 0, sent := [], now := 0 }

/-- The `Entity` object denoted by a token. -/
def World.entity (w : World) (t : Nat) : EntityState :=
  w.entities.getD t default

/-- Replace the state of the `Entity` object at a token. -/
def World.setEntity (w : World) (t : Nat) (e : EntityState) : World :=
  { w with entities := w.entities.set t e }

/-- `generateUniqueId` (`crypto.randomUUID`): modelled as an injective
string fresh for the current counter. -/
def uuidString (n : Nat) : String := String.mk (List.replicate n 'u')

/-- `Entity.getById`. -/
def getById (w : World) (id : String) : Option Nat :=
  w.registry.lookup id

/-- `Entity.init` (registry initialization): a no-op when already
initialized; otherwise resets the instance map and ignored-source set and
attaches the message listener. The model takes the default transport
configuration, under which `createMessageEmitter` always produces an
emitter (`enableAutoCustomEmitter = true`). -/
def initRegistry (w : World) (sourceEntityIds : List String) : World :=
  if w.isInitialized then w
  else
    { w with
      registry := [], ignoredIds := sourceEntityIds,
      isInitialized := true, hasEmitter := true, listenerAttached := true }

/-- `Entity.destroy` (static): detach the listener (guarded by optional
chaining on the emitter), clear the instance map and ignored-source set,
and reset the initialized flag. -/
def destroyRegistry (w : World) : World :=
  { w with
    registry := [], ignoredIds := [], isInitialized := false,
    listenerAttached := false }

/-- Errors thrown by the Entity class (`new Error(...)` in the source). -/
inductive BMError where
  | duplicateEntityId (id : String)
  | entityDestroyed
  deriving Repr, DecidableEq

/-- The `Entity` constructor: if the id is registered, either throw
`DuplicateEntityId` or return the already-registered instance; otherwise
construct a fresh object and register it. Returns the token of the
resulting instance. -/
def mkEntity (w : World) (id : String) (errorOnDuplicate : Bool) :
    World × Except BMError Nat :=
  match w.registry.lookup id with
  | some t =>
    if errorOnDuplicate then (w, .error (.duplicateEntityId id))
    else (w, .ok t)
  | none =>
    let t := w.entities.length
    ({ w with
       entities := w.entities ++ [⟨id, [], []⟩],
       registry := jsMapSet w.registry id t }, .ok t)

/-- `entity.destroy()`: remove this instance's id from the registry (the
object itself, including its pending requests, is untouched). -/
def destroyEntity (w : World) (t : Nat) : World :=
  { w with registry := w.registry.filter (fun p => !(p.1 == (w.entity t).eid)) }

/-- `entity.subscribeMessage(handler)`: append the handler to the ordered
handler list (handlers are identified by `Nat` tokens). -/
def subscribeMessage (w : World) (t : Nat) (h : Nat) : World :=
  w.setEntity t { w.entity t with handlers := (w.entity t).handlers ++ [h] }

/-- Outcome of `sendMessage` as observable on the returned promise. -/
structure SendOutcome where
  rejected : Bool
  error : Option BMError
  messageId : String
  resolver : Nat
  deriving Repr, DecidableEq

/-- `entity.sendMessage(targetId, message)`: reject the promise when no
entity is registered under this object's id — but with no early return,
so a pending entry is still registered under a fresh message id and the
encoded request envelope is still broadcast, exactly as on the success
path. -/
def sendMessage (w : World) (t : Nat) (targetId : String) (message : Value) :
    World × SendOutcome :=
  let e := w.entity t
  let rejected := (getById w e.eid).isNone
  let mid := uuidString w.nextUuid
  let env : MessageData :=
    { via := "bom-message", kind := "request", messageId := mid,
      fromId := e.eid, toId := targetId,
      payload := encodeNestedFormData message, timestamp := w.now }
  let w' := { w.setEntity t
      { e with pendingRequests := jsMapSet e.pendingRequests mid w.nextResolver }
    with nextUuid := w.nextUuid + 1, nextResolver := w.nextResolver + 1,
         sent := w.sent ++ [env] }
  (w', { rejected := rejected,
         error := if rejected then some .entityDestroyed else none,
         messageId := mid, resolver := w.nextResolver })

/-- One handler invocation observed during dispatch of a request. -/
structure Invocation where
  handler : Nat
  senderId : String
  payload : Value
  deriving Repr

/-- Observable effects of processing one incoming envelope. -/
structure HandleOut where
  invocations : List Invocation
  resolutions : List (Nat × Value)
  deriving Repr

/-- The empty effect record. -/
def HandleOut.none : HandleOut := ⟨[], []⟩

/-- `entity.handleIncomingMessage(data)`: drop self-addressed envelopes;
for a request, decode the payload and invoke every subscribed handler in
subscription order (a decode exception rejects each handler's wrapper
promise silently, so no handler runs); for a response, look up the
correlation id among pending requests and, when present, resolve with the
decoded payload and delete the entry (a decode exception again aborts
silently, before the resolve and the delete). -/
def handleIncomingMessage (w : World) (t : Nat) (d : MessageData) :
    World × HandleOut :=
  let e := w.entity t
  if d.fromId == e.eid then (w, .none)
  else if d.kind == "request" then
    match decodeNestedFormData d.payload with
    | .ok dv => (w, ⟨e.handlers.map (fun h => ⟨h, d.fromId, dv⟩), []⟩)
    | .error _ => (w, .none)
  else if d.kind == "response" then
    match e.pendingRequests.lookup d.messageId with
    | some r =>
      match decodeNestedFormData d.payload with
      | .ok dv =>
        (w.setEntity t
          { e with pendingRequests :=
              e.pendingRequests.filter (fun p => !(p.1 == d.messageId)) },
         ⟨[], [(r, dv)]⟩)
      | .error _ => (w, .none)
    | none => (w, .none)
  else (w, .none)

/-- `isMessageData` from src/bom-message.ts: the envelope validator. -/
def isMessageData (data : Value) : Bool :=
  match data with
  | .vobj fs =>
    (match jsLookup fs "via" with
     | some (.vstr s) => s == "bom-message"
     | _ => false) &&
    (match jsLookup fs "type" with
     | some (.vstr s) => s == "request" || s == "response"
     | _ => false) &&
    (match jsLookup fs "messageId" with
     | some (.vstr _) => true
     | _ => false) &&
    (match jsLookup fs "from" with
     | some (.vstr _) => true
     | _ => false) &&
    (match jsLookup fs "to" with
     | some (.vstr _) => true
     | _ => false) &&
    (jsLookup fs "payload").isSome &&
    (match jsLookup fs "timestamp" with
     | some (.vnum _) => true
     | _ => false)
  | _ => false

/-- Field extraction used after `isMessageData` has validated the data. -/
def readMessageData (data : Value) : MessageData :=
  match data with
  | .vobj fs =>
    { via := jsToStr (jsLookup fs "via"),
      kind := jsToStr (jsLookup fs "type"),
      messageId := jsToStr (jsLookup fs "messageId"),
      fromId := jsToStr (jsLookup fs "from"),
      toId := jsToStr (jsLookup fs "to"),
      payload := (jsLookup fs "payload").getD .vnull,
      timestamp :=
        match jsLookup fs "timestamp" with
        | some (.vnum n) => n
        | _ => 0 }
  | _ => { via := "", kind := "", messageId := "", fromId := "", toId := "",
           payload := .vnull, timestamp := 0 }

/-- The validated envelope carried by a raw transport event, when any:
the event must be an object with a `data` property whose value is truthy
and passes `isMessageData`. -/
def eventEnvelope (event : Value) : Option MessageData :=
  match event with
  | .vobj fs =>
    match jsLookup fs "data" with
    | some data =>
      if !jsFalsy data && isMessageData data then some (readMessageData data)
      else none
    | none => none
  | _ => none

/-- `Entity.onWindowMessage`, the single transport listener: validate the
event shape and envelope (`eventEnvelope` performs the source's checks in
order: object event with a `data` property, truthy data, `isMessageData`),
drop envelopes from ignored source ids, look up the target entity by `to`,
and delegate; every drop path returns with no effect. -/
def onWindowMessage (w : World) (event : Value) : World × HandleOut :=
  match eventEnvelope event with
  | none => (w, HandleOut.none)
  | some d =>
    if w.ignoredIds.contains d.fromId then (w, HandleOut.none)
    else
      match getById w d.toId with
      | some t => handleIncomingMessage w t d
      | none => (w, HandleOut.none)

/-- Well-formedness of the dynamic uuid counter: every pending
correlation id was generated by an earlier counter value (guarantees the
next generated id is fresh). -/
def uuidFresh (w : World) : Bool :=
  w.entities.all (fun e =>
    e.pendingRequests.all (fun p => p.1.length < w.nextUuid))

/-! ## Concrete scenario states used by witnesses and counterexamples -/

/-- `init`; `new Entity("a")`; `entity.destroy()`: a world whose only
entity object (token 0) is destroyed. -/
def destroyedWorld : World :=
  destroyEntity (mkEntity (initRegistry initialWorld []) "a" false).1 0

/-- `init`; `e1 = new Entity("a")`; `e1.destroy()`; `new Entity("a")`:
the first object (token 0) has been destroyed, and a second object
(token 1) now owns the id `"a"`. -/
def recreatedWorld : World := (mkEntity destroyedWorld "a" false).1

/-- `init`; `new Entity("r")`; one subscribed handler (token 3). -/
def receiverWorld : World :=
  subscribeMessage (mkEntity (initRegistry initialWorld []) "r" false).1 0 3

/-- A request envelope whose payload is a structurally valid
`EncodedFormData` whose file item carries content that is not a data URL,
so `decodeNestedFormData` throws. -/
def malformedRequest : MessageData :=
  { via := "bom-message", kind := "request", messageId := "m", fromId := "s",
    toId := "r",
    payload := .vobj [("dataType", .vstr "formData"),
      ("items", .vobj [("k", .vobj [("dataType", .vstr "file"),
        ("fileName", .vstr "f"), ("content", .vstr "x")])])],
    timestamp := 0 }

/-- A world with one entity `"a"` (token 0) holding a pending request
under correlation id `"m1"` with resolver 5. -/
def pendingWorld : World :=
  { entities := [⟨"a", [], [("m1", 5)]⟩], registry := [("a", 0)],
    ignoredIds := [], isInitialized := true, hasEmitter := true,
    listenerAttached := true, nextUuid := 3, nextResolver := 6,
    sent := [], now := 0 }

/-- A response envelope for `pendingWorld` whose `from` equals the
receiving entity's own id while carrying its pending correlation id. -/
def selfResponse : MessageData :=
  { via := "bom-message", kind := "response", messageId := "m1",
    fromId := "a", toId := "a", payload := .vstr "x", timestamp := 0 }

/-- The same response coming from another entity. -/
def otherResponse : MessageData :=
  { via := "bom-message", kind := "response", messageId := "m1",
    fromId := "b", toId := "a", payload := .vstr "x", timestamp := 0 }

/-- A well-formed request envelope for `receiverWorld`. -/
def goodRequest : MessageData :=
  { via := "bom-message", kind := "request", messageId := "m2", fromId := "s",
    toId := "r", payload := .vstr "hello", timestamp := 0 }

/-- A valid envelope value addressed to an unregistered id. -/
def strayData : Value :=
  .vobj [("via", .vstr "bom-message"), ("type", .vstr "request"),
    ("messageId", .vstr "m3"), ("from", .vstr "s"), ("to", .vstr "nobody"),
    ("payload", .vstr "hi"), ("timestamp", .vnum 1)]

/-- A raw transport event carrying `strayData`. -/
def strayEvent : Value := .vobj [("data", strayData)]

/-- A composite supported payload exercising scalars, strings, blobs,
form containers and objects, used by the C1 witness. Its form container
puts a blob entry before a text entry, so the round-trip image reorders
it (text first), per the amended claim. -/
def c1Witness : Value :=
  .varr [.vnum 3, .vstr "hello", .vfile ⟨"p.txt", "text/plain", [104]⟩,
    .vform [("b", .ffile ⟨"f.bin", "application/x", [0, 255]⟩), ("a", .ftext "t")],
    .vobj [("x", .vnull), ("y", .vbool true)]]

/-! ## Base64 round-trip lemmas -/

theorem b64DecVal_enc {n : Nat} (h : n < 64) :
    b64DecVal (b64EncChar n) = some n := by
  have hfin : ∀ m : Fin 64, b64DecVal (b64EncChar m.val) = some m.val := by
    decide
  exact hfin ⟨n, h⟩

theorem b64EncChar_props {n : Nat} (h : n < 64) :
    isB64Ws (b64EncChar n) = false ∧ ¬b64EncChar n = '=' ∧
      ¬b64EncChar n = ',' := by
  have hfin : ∀ m : Fin 64, isB64Ws (b64EncChar m.val) = false ∧
      ¬b64EncChar m.val = '=' ∧ ¬b64EncChar m.val = ',' := by decide
  exact hfin ⟨n, h⟩

theorem b64encode_eq_core_pad : ∀ bs : List Nat,
    b64encode bs = b64encodeCore bs ++ b64pad bs
  | [] => rfl
  | [_] => rfl
  | [_, _] => rfl
  | b1 :: b2 :: b3 :: rest => by
    simp only [b64encode, b64encodeCore, b64pad, List.cons_append]
    rw [b64encode_eq_core_pad rest]

theorem b64pad_chars : ∀ bs : List Nat, ∀ c ∈ b64pad bs, c = '='
  | [] => by intro c hc; cases hc
  | [_] => by
    intro c hc
    rcases List.mem_cons.mp hc with h | h
    · exact h
    · rcases List.mem_cons.mp h with h | h
      · exact h
      · cases h
  | [_, _] => by
    intro c hc
    rcases List.mem_cons.mp hc with h | h
    · exact h
    · cases h
  | _ :: _ :: _ :: rest => fun c hc => b64pad_chars rest c hc

theorem b64pad_cases : ∀ bs : List Nat,
    b64pad bs = [] ∨ b64pad bs = ['='] ∨ b64pad bs = ['=', '=']
  | [] => Or.inl rfl
  | [_] => Or.inr (Or.inr rfl)
  | [_, _] => Or.inr (Or.inl rfl)
  | _ :: _ :: _ :: rest => b64pad_cases rest

theorem b64encodeCore_chars : ∀ bs : List Nat, (∀ b ∈ bs, b < 256) →
    ∀ c ∈ b64encodeCore bs, isB64Ws c = false ∧ ¬c = '=' ∧ ¬c = ','
  | [], _ => by intro c hc; cases hc
  | [b1], h => by
    intro c hc
    have hb1 : b1 < 256 := h b1 (by simp)
    simp only [b64encodeCore] at hc
    rcases List.mem_cons.mp hc with rfl | hc
    · exact b64EncChar_props (by omega)
    · rcases List.mem_cons.mp hc with rfl | hc
      · exact b64EncChar_props (by omega)
      · cases hc
  | [b1, b2], h => by
    intro c hc
    have hb1 : b1 < 256 := h b1 (by simp)
    have hb2 : b2 < 256 := h b2 (by simp)
    simp only [b64encodeCore] at hc
    rcases List.mem_cons.mp hc with rfl | hc
    · exact b64EncChar_props (by omega)
    · rcases List.mem_cons.mp hc with rfl | hc
      · exact b64EncChar_props (by omega)
      · rcases List.mem_cons.mp hc with rfl | hc
        · exact b64EncChar_props (by omega)
        · cases hc
  | b1 :: b2 :: b3 :: rest, h => by
    intro c hc
    have hb1 : b1 < 256 := h b1 (by simp)
    have hb2 : b2 < 256 := h b2 (by simp)
    have hb3 : b3 < 256 := h b3 (by simp)
    simp only [b64encodeCore] at hc
    rcases List.mem_cons.mp hc with rfl | hc
    · exact b64EncChar_props (by omega)
    · rcases List.mem_cons.mp hc with rfl | hc
      · exact b64EncChar_props (by omega)
      · rcases List.mem_cons.mp hc with rfl | hc
        · exact b64EncChar_props (by omega)
        · rcases List.mem_cons.mp hc with rfl | hc
          · exact b64EncChar_props (by omega)
          · exact b64encodeCore_chars rest
              (fun b hb => h b (by simp [hb])) c hc

theorem b64encode_length_mod : ∀ bs : List Nat,
    (b64encode bs).length % 4 = 0
  | [] => rfl
  | [_] => by simp [b64encode]
  | [_, _] => by simp [b64encode]
  | _ :: _ :: _ :: rest => by
    have ih := b64encode_length_mod rest
    simp only [b64encode, List.length_cons]
    omega

theorem b64encode_ne_nil : ∀ bs : List Nat, bs ≠ [] → b64encode bs ≠ []
  | [], h => absurd rfl h
  | [_], _ => by simp [b64encode]
  | [_, _], _ => by simp [b64encode]
  | _ :: _ :: _ :: _, _ => by simp [b64encode]

theorem stripPad_no_eq (l : List Char) (h : ∀ c ∈ l, ¬c = '=') :
    stripB64Pad l = l := by
  rw [stripB64Pad]
  split
  · rename_i r heq
    exfalso
    have hmem : '=' ∈ l.reverse := by rw [heq]; simp
    exact h '=' (List.mem_reverse.mp hmem) rfl
  · rename_i r heq
    exfalso
    have hmem : '=' ∈ l.reverse := by rw [heq]; simp
    exact h '=' (List.mem_reverse.mp hmem) rfl
  · rfl

theorem stripPad_append_one (l : List Char) (h : ∀ c ∈ l, ¬c = '=') :
    stripB64Pad (l ++ ['=']) = l := by
  have hrev : (l ++ ['=']).reverse = '=' :: l.reverse := by simp
  rw [stripB64Pad]
  split
  · rename_i r heq
    rw [hrev] at heq
    injection heq with h1 h2
    exfalso
    have hmem : '=' ∈ l.reverse := by rw [h2]; simp
    exact h '=' (List.mem_reverse.mp hmem) rfl
  · rename_i r heq
    rw [hrev] at heq
    injection heq with h1 h2
    rw [← h2, List.reverse_reverse]
  · rename_i hne1 hne2
    exact absurd hrev (hne2 l.reverse)

theorem stripPad_append_two (l : List Char) :
    stripB64Pad (l ++ ['=', '=']) = l := by
  have hrev : (l ++ ['=', '=']).reverse = '=' :: '=' :: l.reverse := by simp
  rw [stripB64Pad]
  split
  · rename_i r heq
    rw [hrev] at heq
    injection heq with h1 h2
    injection h2 with h3 h4
    rw [← h4, List.reverse_reverse]
  · rename_i a r hno heq
    rw [hrev] at heq
    injection heq with h1 h2
    exact absurd h2.symm (fun hr => hno l.reverse hr)
  · rename_i a hno1 hno2
    exact absurd hrev (hno1 l.reverse)

theorem b64decodeCore_encodeCore : ∀ bs : List Nat, (∀ b ∈ bs, b < 256) →
    b64decodeCore (b64encodeCore bs) = some bs
  | [], _ => rfl
  | [b1], h => by
    have hb1 : b1 < 256 := h b1 (by simp)
    simp only [b64encodeCore, b64decodeCore, b64DecVal_enc (show b1 / 4 < 64 by omega),
      b64DecVal_enc (show b1 % 4 * 16 < 64 by omega), Option.some_bind]
    have harith : b1 / 4 * 4 + b1 % 4 * 16 / 16 = b1 := by omega
    show some [b1 / 4 * 4 + b1 % 4 * 16 / 16] = some [b1]
    rw [harith]
  | [b1, b2], h => by
    have hb1 : b1 < 256 := h b1 (by simp)
    have hb2 : b2 < 256 := h b2 (by simp)
    simp only [b64encodeCore, b64decodeCore,
      b64DecVal_enc (show b1 / 4 < 64 by omega),
      b64DecVal_enc (show b1 % 4 * 16 + b2 / 16 < 64 by omega),
      b64DecVal_enc (show b2 % 16 * 4 < 64 by omega), Option.some_bind]
    have h1 : b1 / 4 * 4 + (b1 % 4 * 16 + b2 / 16) / 16 = b1 := by omega
    have h2 : (b1 % 4 * 16 + b2 / 16) % 16 * 16 + b2 % 16 * 4 / 4 = b2 := by
      omega
    show some [b1 / 4 * 4 + (b1 % 4 * 16 + b2 / 16) / 16, (b1 % 4 * 16 + b2 / 16) % 16 * 16 + b2 % 16 * 4 / 4] = some [b1, b2]
    rw [h1, h2]
  | b1 :: b2 :: b3 :: rest, h => by
    have hb1 : b1 < 256 := h b1 (by simp)
    have hb2 : b2 < 256 := h b2 (by simp)
    have hb3 : b3 < 256 := h b3 (by simp)
    have hr : ∀ b ∈ rest, b < 256 := fun b hb => h b (by simp [hb])
    simp only [b64encodeCore, b64decodeCore,
      b64DecVal_enc (show b1 / 4 < 64 by omega),
      b64DecVal_enc (show b1 % 4 * 16 + b2 / 16 < 64 by omega),
      b64DecVal_enc (show b2 % 16 * 4 + b3 / 64 < 64 by omega),
      b64DecVal_enc (show b3 % 64 < 64 by omega), Option.some_bind,
      b64decodeCore_encodeCore rest hr]
    have h1 : b1 / 4 * 4 + (b1 % 4 * 16 + b2 / 16) / 16 = b1 := by omega
    have h2 : (b1 % 4 * 16 + b2 / 16) % 16 * 16 +
        (b2 % 16 * 4 + b3 / 64) / 4 = b2 := by omega
    have h3 : (b2 % 16 * 4 + b3 / 64) % 4 * 64 + b3 % 64 = b3 := by omega
    show some ((b1 / 4 * 4 + (b1 % 4 * 16 + b2 / 16) / 16) :: ((b1 % 4 * 16 + b2 / 16) % 16 * 16 + (b2 % 16 * 4 + b3 / 64) / 4) :: ((b2 % 16 * 4 + b3 / 64) % 4 * 64 + b3 % 64) :: rest) = some (b1 :: b2 :: b3 :: rest)
    rw [h1, h2, h3]

theorem atob_b64encode (bs : List Nat) (h : ∀ b ∈ bs, b < 256) :
    atob (String.mk (b64encode bs)) = some bs := by
  have hfil : (b64encode bs).filter (fun c => !isB64Ws c) = b64encode bs := by
    rw [List.filter_eq_self]
    intro c hc
    rw [b64encode_eq_core_pad] at hc
    rcases List.mem_append.mp hc with hc | hc
    · simp [(b64encodeCore_chars bs h c hc).1]
    · rw [b64pad_chars bs c hc]
      rfl
  have hlen : ((b64encode bs).length % 4 == 0) = true := by
    simp [b64encode_length_mod bs]
  have hstrip : stripB64Pad (b64encode bs) = b64encodeCore bs := by
    rw [b64encode_eq_core_pad]
    rcases b64pad_cases bs with hp | hp | hp <;> rw [hp]
    · rw [List.append_nil]
      exact stripPad_no_eq _ (fun c hc => (b64encodeCore_chars bs h c hc).2.1)
    · exact stripPad_append_one _
        (fun c hc => (b64encodeCore_chars bs h c hc).2.1)
    · exact stripPad_append_two _
  have hstart : atob (String.mk (b64encode bs)) =
      b64decodeCore (if ((b64encode bs).filter (fun c => !isB64Ws c)).length % 4 == 0 then stripB64Pad ((b64encode bs).filter (fun c => !isB64Ws c)) else ((b64encode bs).filter (fun c => !isB64Ws c))) := rfl
  rw [hstart, hfil, hlen, if_pos rfl, hstrip]
  exact b64decodeCore_encodeCore bs h

/-! ## Data URL round-trip lemmas -/

theorem toList_append (a b : String) :
    (a ++ b).toList = a.toList ++ b.toList := by
  cases a
  cases b
  rfl

theorem mk_toList (s : String) : String.mk s.toList = s := rfl

theorem b64encode_no_comma (bs : List Nat) (h : ∀ b ∈ bs, b < 256) :
    ∀ c ∈ b64encode bs, ¬c = ',' := by
  intro c hc
  rw [b64encode_eq_core_pad] at hc
  rcases List.mem_append.mp hc with hc | hc
  · exact (b64encodeCore_chars bs h c hc).2.2
  · rw [b64pad_chars bs c hc]
    decide

theorem splitOnChar_no_sep (sep : Char) : ∀ l : List Char,
    (∀ c ∈ l, ¬c = sep) → splitOnChar sep l = [l]
  | [], _ => rfl
  | c :: rest, h => by
    rw [splitOnChar]
    rw [beq_false_of_ne (h c (by simp))]
    rw [splitOnChar_no_sep sep rest (fun x hx => h x (by simp [hx]))]
    rfl

theorem splitOnChar_sep_append (sep : Char) : ∀ l1 l2 : List Char,
    (∀ c ∈ l1, ¬c = sep) →
    splitOnChar sep (l1 ++ sep :: l2) = l1 :: splitOnChar sep l2
  | [], l2, _ => by
    rw [List.nil_append, splitOnChar, beq_self_eq_true]
    rfl
  | c :: l1, l2, h => by
    rw [List.cons_append, splitOnChar]
    rw [beq_false_of_ne (h c (by simp))]
    rw [splitOnChar_sep_append sep l1 l2 (fun x hx => h x (by simp [hx]))]
    rfl

theorem takeWhile_until_semi : ∀ mime rest : List Char,
    (∀ c ∈ mime, ¬c = ';') →
    (mime ++ ';' :: rest).takeWhile (fun c => c != ';') = mime
  | [], rest, _ => rfl
  | c :: mime, rest, h => by
    rw [List.cons_append, List.takeWhile_cons]
    have hc : (c != ';') = true := by
      simp [bne, beq_false_of_ne (h c (by simp))]
    rw [hc]
    simp only [ite_true, if_pos rfl]
    rw [takeWhile_until_semi mime rest (fun x hx => h x (by simp [hx]))]

theorem extractMime_dataUrl (mime rest2 : List Char)
    (hm : ∀ c ∈ mime, ¬c = ';') :
    extractMime ('d' :: 'a' :: 't' :: 'a' :: ':' :: (mime ++ ';' :: rest2)) =
      some (String.mk mime) := by
  rw [extractMime]
  have hdrop : List.dropWhile (fun c => c != ':')
      ('d' :: 'a' :: 't' :: 'a' :: ':' :: (mime ++ ';' :: rest2)) =
      ':' :: (mime ++ ';' :: rest2) := rfl
  rw [hdrop]
  have hcont : (mime ++ ';' :: rest2).contains ';' = true := by
    simp [List.contains]
  simp only [hcont, ite_true, if_pos rfl]
  rw [takeWhile_until_semi mime rest2 hm]

theorem decodeFile_encodeFileStr (f : BMFile) (name : String)
    (hne : f.bytes ≠ []) (hb : ∀ b ∈ f.bytes, b < 256)
    (hm : ∀ c ∈ f.mime.toList, ¬c = ',' ∧ ¬c = ';') :
    decodeFile (encodeFileStr f) name = .ok ⟨name, f.mime, f.bytes⟩ := by
  have htl : (encodeFileStr f).toList =
      ('d' :: 'a' :: 't' :: 'a' :: ':' :: (f.mime.toList ++ (';' :: 'b' :: 'a' :: 's' :: 'e' :: '6' :: '4' :: []))) ++ ',' :: b64encode f.bytes := by
    rw [encodeFileStr]
    rw [toList_append, toList_append, toList_append]
    simp [mk_toList]
  have hpfx : ∀ c ∈ ('d' :: 'a' :: 't' :: 'a' :: ':' :: (f.mime.toList ++ (';' :: 'b' :: 'a' :: 's' :: 'e' :: '6' :: '4' :: []))), ¬c = ',' := by
    intro c hc
    rcases List.mem_cons.mp hc with rfl | hc
    · decide
    · rcases List.mem_cons.mp hc with rfl | hc
      · decide
      · rcases List.mem_cons.mp hc with rfl | hc
        · decide
        · rcases List.mem_cons.mp hc with rfl | hc
          · decide
          · rcases List.mem_cons.mp hc with rfl | hc
            · decide
            · rcases List.mem_append.mp hc with hc | hc
              · exact (hm c hc).1
              · intro he
                subst he
                simp at hc
  have hsplit : splitOnChar ',' (encodeFileStr f).toList =
      [('d' :: 'a' :: 't' :: 'a' :: ':' :: (f.mime.toList ++ (';' :: 'b' :: 'a' :: 's' :: 'e' :: '6' :: '4' :: []))), b64encode f.bytes] := by
    rw [htl]
    rw [splitOnChar_sep_append ',' _ _ hpfx]
    rw [splitOnChar_no_sep ',' _ (b64encode_no_comma f.bytes hb)]
  have hmime : extractMime ('d' :: 'a' :: 't' :: 'a' :: ':' :: (f.mime.toList ++ (';' :: 'b' :: 'a' :: 's' :: 'e' :: '6' :: '4' :: []))) = some f.mime := by
    rw [extractMime_dataUrl _ _ (fun c hc => (hm c hc).2), mk_toList]
  have hempty : (b64encode f.bytes).isEmpty = false := by
    cases h : b64encode f.bytes with
    | nil => exact absurd h (b64encode_ne_nil f.bytes hne)
    | cons x xs => rfl
  obtain ⟨x, xs, hbe⟩ : ∃ x xs, b64encode f.bytes = x :: xs := by
    cases hbb : b64encode f.bytes with
    | nil => exact absurd hbb (b64encode_ne_nil f.bytes hne)
    | cons x xs => exact ⟨x, xs, rfl⟩
  have hatob : atob (String.mk (x :: xs)) = some f.bytes := by
    rw [← hbe]
    exact atob_b64encode f.bytes hb
  simp only [decodeFile, hsplit, List.headD, List.drop, hbe, hmime, hatob]
  simp [List.isEmpty]

/-! ## Helper lemmas -/

theorem lookup_append_self {α : Type} (l : List (String × α)) (k : String)
    (v : α) (h : l.lookup k = none) : (l ++ [(k, v)]).lookup k = some v := by
  induction l with
  | nil => simp [List.lookup]
  | cons p rest ih =>
    rw [List.lookup] at h
    rw [List.cons_append, List.lookup]
    cases hk : (k == p.1) with
    | true => rw [hk] at h; simp at h
    | false => rw [hk] at h; exact ih h

theorem lookup_map_overwrite {α : Type} (m : List (String × α))
    (k k2 : String) (v : α) (h : k ≠ k2) :
    (m.map (fun p => if p.1 == k2 then (k2, v) else p)).lookup k =
      m.lookup k := by
  induction m with
  | nil => rfl
  | cons p rest ih =>
    obtain ⟨a, b⟩ := p
    simp only [List.map_cons]
    by_cases ha : a = k2
    · subst ha
      rw [if_pos (by simp)]
      rw [List.lookup, List.lookup, beq_false_of_ne h]
      exact ih
    · rw [if_neg (by simp [ha])]
      rw [List.lookup, List.lookup]
      cases hk : (k == a)
      · exact ih
      · rfl

theorem lookup_append_single_ne {α : Type} (m : List (String × α))
    (k k2 : String) (v : α) (h : k ≠ k2) :
    (m ++ [(k2, v)]).lookup k = m.lookup k := by
  induction m with
  | nil =>
    simp only [List.nil_append, List.lookup, beq_false_of_ne h]
  | cons p rest ih =>
    rw [List.cons_append, List.lookup, List.lookup]
    cases hk : (k == p.1)
    · exact ih
    · rfl

theorem lookup_jsMapSet_ne {α : Type} (m : List (String × α)) (k k2 : String)
    (v : α) (h : k ≠ k2) : (jsMapSet m k2 v).lookup k = m.lookup k := by
  rw [jsMapSet]
  split
  · exact lookup_map_overwrite m k k2 v h
  · exact lookup_append_single_ne m k k2 v h

theorem jsMapSet_append_of_fresh {α : Type} (m : List (String × α))
    (k : String) (v : α) (h : ∀ p ∈ m, ¬(p.1 = k)) :
    jsMapSet m k v = m ++ [(k, v)] := by
  rw [jsMapSet]
  have hany : m.any (fun p => p.1 == k) = false := by
    simp only [List.any_eq_false]
    intro p hp
    simp only [beq_false_of_ne (h p hp)]
    exact Bool.false_ne_true
  rw [hany]
  rfl

theorem lookup_filter_self_none {α : Type} (l : List (String × α))
    (k : String) : (l.filter (fun p => !(p.1 == k))).lookup k = none := by
  induction l with
  | nil => rfl
  | cons p rest ih =>
    rw [List.filter_cons]
    cases hp : (p.1 == k) with
    | true => simp only [hp, Bool.not_true, if_neg Bool.false_ne_true]; exact ih
    | false =>
      have hk : (k == p.1) = false := by
        refine beq_false_of_ne (fun he => ?_)
        rw [he] at hp
        simp at hp
      simp only [hp, Bool.not_false, if_pos rfl, List.lookup, hk]
      exact ih

theorem entity_setEntity (w : World) (t : Nat) (e : EntityState)
    (ht : t < w.entities.length) : (w.setEntity t e).entity t = e := by
  simp [World.setEntity, World.entity, List.getD, List.getElem?_set_self, ht]

theorem getD_append_length {α : Type} (l : List α) (e d : α) :
    (l ++ [e]).getD l.length d = e := by
  simp [List.getD]

theorem lookup_none_not_mem {α : Type} (l : List (String × α)) (k : String)
    (h : l.lookup k = none) : ∀ p ∈ l, ¬(p.1 = k) := by
  induction l with
  | nil => intro p hp; cases hp
  | cons q rest ih =>
    rw [List.lookup] at h
    cases hq : (k == q.1) with
    | true => rw [hq] at h; cases h
    | false =>
      rw [hq] at h
      intro p hp
      rcases List.mem_cons.mp hp with rfl | hmem
      · intro he; rw [he] at hq; simp at hq
      · exact ih h p hmem

theorem uuidString_length (n : Nat) : (uuidString n).length = n := by
  simp [uuidString, String.length]

theorem entity_mem (w : World) (t : Nat) (ht : t < w.entities.length) :
    w.entity t ∈ w.entities := by
  rw [World.entity, List.getD_eq_getElem _ _ ht]
  exact List.getElem_mem ht

/-! ## Form-data codec lemmas -/

theorem goodFileB_spec (f : BMFile) (h : goodFileB f = true) :
    f.bytes ≠ [] ∧ (∀ b ∈ f.bytes, b < 256) ∧
      ∀ c ∈ f.mime.toList, ¬c = ',' ∧ ¬c = ';' := by
  rw [goodFileB] at h
  rw [Bool.and_eq_true, Bool.and_eq_true] at h
  obtain ⟨⟨h1, h2⟩, h3⟩ := h
  refine ⟨?_, ?_, ?_⟩
  · intro he
    rw [he] at h1
    simp at h1
  · intro b hb
    have := List.all_eq_true.mp h2 b hb
    exact of_decide_eq_true this
  · intro c hc
    have := List.all_eq_true.mp h3 c hc
    rw [Bool.and_eq_true] at this
    constructor
    · intro he
      rw [he] at this
      simp at this
    · intro he
      rw [he] at this
      simp at this

theorem encodeItem_isItem (fv : FormVal) :
    isEncodedFormDataItem (encodeItem fv) = true := by
  cases fv <;> rfl

theorem jsMapSet_preserve {α : Type} (P : α → Prop) (m : List (String × α))
    (k : String) (v : α) (hm : ∀ p ∈ m, P p.2) (hv : P v) :
    ∀ p ∈ jsMapSet m k v, P p.2 := by
  intro p hp
  rw [jsMapSet] at hp
  split at hp
  · rcases List.mem_map.mp hp with ⟨q, hq, rfl⟩
    by_cases hqk : (q.1 == k) = true
    · simp only [hqk, ite_true, if_pos rfl]
      exact hv
    · simp only [hqk, Bool.false_eq_true, if_neg hqk]
      exact hm q hq
  · rcases List.mem_append.mp hp with hp | hp
    · exact hm p hp
    · simp only [List.mem_singleton] at hp
      subst hp
      exact hv

theorem encodeFormPass_item (P : FormVal → Bool) :
    ∀ (entries : List (String × FormVal)) (acc : List (String × Value)),
    (∀ p ∈ acc, ∃ fv, p.2 = encodeItem fv) →
    ∀ p ∈ encodeFormPass P entries acc, ∃ fv, p.2 = encodeItem fv
  | [], acc, hacc => hacc
  | q :: entries, acc, hacc => by
    have hstep : encodeFormPass P (q :: entries) acc =
        encodeFormPass P entries
          (if P q.2 then jsMapSet acc q.1 (encodeItem q.2) else acc) := rfl
    rw [hstep]
    refine encodeFormPass_item P entries _ ?_
    cases hP : P q.2
    · simp only [hP, Bool.false_eq_true, if_false]
      exact hacc
    · simp only [hP, ite_true, if_pos rfl]
      exact jsMapSet_preserve (fun v => ∃ fv, v = encodeItem fv) acc q.1
        (encodeItem q.2) hacc ⟨q.2, rfl⟩

theorem encodeFormItems_item (entries : List (String × FormVal)) :
    ∀ p ∈ encodeFormItems entries, ∃ fv, p.2 = encodeItem fv :=
  encodeFormPass_item isFileVal entries _
    (encodeFormPass_item isTextVal entries [] (by intro p hp; cases hp))

theorem isEncodedFormData_encodeFormData (entries : List (String × FormVal)) :
    isEncodedFormData (encodeFormData entries) = true := by
  show ((encodeFormItems entries).all (fun p => isEncodedFormDataItem p.2)) = true
  rw [List.all_eq_true]
  intro p hp
  obtain ⟨fv, hfv⟩ := encodeFormItems_item entries p hp
  rw [hfv, encodeItem_isItem]

theorem nodupKeys_key_unique {α : Type} : ∀ (l : List (String × α)),
    nodupKeysB l = true → ∀ p ∈ l, ∀ r ∈ l, p.1 = r.1 → p = r
  | [], _, p, hp, _, _, _ => absurd hp (List.not_mem_nil p)
  | q :: rest, hnd, p, hp, r, hr, heq => by
    obtain ⟨qk, qv⟩ := q
    rw [nodupKeysB, Bool.and_eq_true] at hnd
    obtain ⟨hk, hnd⟩ := hnd
    rcases List.mem_cons.mp hp with rfl | hp <;>
      rcases List.mem_cons.mp hr with rfl | hr
    · rfl
    · exfalso
      have hne := List.all_eq_true.mp hk r hr
      simp only [Bool.not_eq_true'] at hne
      rw [← heq] at hne
      simp at hne
    · exfalso
      have hne := List.all_eq_true.mp hk p hp
      simp only [Bool.not_eq_true'] at hne
      rw [heq] at hne
      simp at hne
    · exact nodupKeys_key_unique rest hnd p hp r hr heq

theorem encodeFormPass_eq_map (P : FormVal → Bool) :
    ∀ (entries : List (String × FormVal)) (acc : List (String × Value)),
    nodupKeysB entries = true →
    (∀ p ∈ entries, P p.2 = true → ∀ q ∈ acc, ¬q.1 = p.1) →
    encodeFormPass P entries acc =
      acc ++ (entries.filter (fun q => P q.2)).map
        (fun q => (q.1, encodeItem q.2))
  | [], acc, _, _ => by simp [encodeFormPass]
  | (k, v) :: entries, acc, hnd, hacc => by
    rw [nodupKeysB, Bool.and_eq_true] at hnd
    obtain ⟨hk, hnd⟩ := hnd
    have hstep : encodeFormPass P ((k, v) :: entries) acc =
        encodeFormPass P entries
          (if P v then jsMapSet acc k (encodeItem v) else acc) := rfl
    rw [hstep, List.filter_cons]
    cases hP : P v
    · simp only [hP, Bool.false_eq_true, if_false]
      exact encodeFormPass_eq_map P entries acc hnd
        (fun p hp hPp q hq => hacc p (by simp [hp]) hPp q hq)
    · simp only [hP, ite_true, if_pos rfl, List.map_cons]
      rw [jsMapSet_append_of_fresh _ _ _
        (fun q hq => hacc (k, v) (by simp) hP q hq)]
      rw [encodeFormPass_eq_map P entries (acc ++ [(k, encodeItem v)]) hnd ?_]
      · simp
      · intro p hp hPp q hq
        rcases List.mem_append.mp hq with hq | hq
        · exact hacc p (by simp [hp]) hPp q hq
        · simp only [List.mem_singleton] at hq
          subst hq
          have hne := List.all_eq_true.mp hk p hp
          simp only [Bool.not_eq_true'] at hne
          intro he
          have he2 : k = p.1 := he
          rw [← he2] at hne
          simp at hne

theorem encodeFormItems_eq (entries : List (String × FormVal))
    (hnd : nodupKeysB entries = true) :
    encodeFormItems entries =
      (entries.filter (fun q => isTextVal q.2) ++
        entries.filter (fun q => isFileVal q.2)).map
        (fun q => (q.1, encodeItem q.2)) := by
  rw [List.map_append]
  have h1 : encodeFormPass isTextVal entries [] =
      (entries.filter (fun q => isTextVal q.2)).map
        (fun q => (q.1, encodeItem q.2)) := by
    rw [encodeFormPass_eq_map isTextVal entries [] hnd
      (by intro p hp hPp q hq; cases hq)]
    simp
  have hfresh : ∀ p ∈ entries, isFileVal p.2 = true →
      ∀ q ∈ (entries.filter (fun q => isTextVal q.2)).map
        (fun q => (q.1, encodeItem q.2)), ¬q.1 = p.1 := by
    intro p hp hpf q hq he
    rcases List.mem_map.mp hq with ⟨r, hr, rfl⟩
    have hrmem : r ∈ entries := List.mem_of_mem_filter hr
    have hrt : isTextVal r.2 = true := by
      have := List.of_mem_filter hr
      exact this
    have hrp : r = p :=
      nodupKeys_key_unique entries hnd r hrmem p hp he
    rw [hrp] at hrt
    cases hv : p.2 <;> rw [hv] at hrt hpf <;>
      simp [isTextVal, isFileVal] at hrt hpf
  rw [encodeFormItems, h1, encodeFormPass_eq_map isFileVal entries _ hnd hfresh]

theorem decodeFormDataEntries_encodeItems :
    ∀ entries : List (String × FormVal),
    (∀ p ∈ entries, ∀ f, p.2 = FormVal.ffile f → goodFileB f = true) →
    decodeFormDataEntries (entries.map (fun q => (q.1, encodeItem q.2))) =
      .ok entries
  | [], _ => rfl
  | (k, fv) :: entries, h => by
    have hrest := decodeFormDataEntries_encodeItems entries
      (fun p hp => h p (by simp [hp]))
    cases fv with
    | ftext s =>
      have hitem : decodeFormDataItem k (encodeItem (.ftext s)) =
          .ok (k, .ftext s) := rfl
      rw [List.map_cons, decodeFormDataEntries, hitem, hrest]
      rfl
    | ffile f =>
      obtain ⟨h1, h2, h3⟩ := goodFileB_spec f (h (k, .ffile f) (by simp) f rfl)
      have hitem : decodeFormDataItem k (encodeItem (.ffile f)) =
          (decodeFile (encodeFileStr f) f.name).map
            (fun f' => (k, FormVal.ffile f')) := rfl
      rw [List.map_cons, decodeFormDataEntries, hitem,
        decodeFile_encodeFileStr f f.name h1 h2 h3, hrest]
      rfl

theorem decodeFormData_encodeFormData (entries : List (String × FormVal))
    (hnd : nodupKeysB entries = true)
    (hfiles : ∀ p ∈ entries, ∀ f, p.2 = FormVal.ffile f →
      goodFileB f = true) :
    decodeFormData (encodeFormData entries) =
      .ok (.vform (entries.filter (fun q => isTextVal q.2) ++
        entries.filter (fun q => isFileVal q.2))) := by
  have hstart : decodeFormData (encodeFormData entries) =
      (decodeFormDataEntries (encodeFormItems entries)).bind
        (fun es => .ok (.vform es)) := rfl
  rw [hstart, encodeFormItems_eq entries hnd]
  rw [decodeFormDataEntries_encodeItems _ ?_]
  · rfl
  · intro p hp f hf
    rcases List.mem_append.mp hp with hp | hp
    · exact hfiles p (List.mem_of_mem_filter hp) f hf
    · exact hfiles p (List.mem_of_mem_filter hp) f hf

theorem decodeNested_encodeFormData (entries : List (String × FormVal))
    (hnd : nodupKeysB entries = true)
    (hfiles : ∀ p ∈ entries, ∀ f, p.2 = FormVal.ffile f →
      goodFileB f = true) :
    decodeNestedFormData (encodeFormData entries) =
      .ok (.vform (entries.filter (fun q => isTextVal q.2) ++
        entries.filter (fun q => isFileVal q.2))) := by
  have hobj : encodeFormData entries = .vobj [("dataType", .vstr "formData"), ("items", .vobj (encodeFormItems entries))] := rfl
  rw [hobj, decodeNestedFormData, ← hobj]
  rw [isEncodedFormData_encodeFormData entries]
  simp only [ite_true, if_pos rfl]
  exact decodeFormData_encodeFormData entries hnd hfiles

/-! ## Nested round trip -/

theorem jsLookup_encodeValueFields : ∀ (fs : List (String × Value))
    (k : String), jsLookup (encodeValueFields fs) k =
      (jsLookup fs k).map encodeNestedFormData
  | [], _ => rfl
  | (k', v) :: fs, k => by
    rw [encodeValueFields, jsLookup, jsLookup]
    cases hk : (k' == k)
    · simp only [hk, Bool.false_eq_true, if_false]
      exact jsLookup_encodeValueFields fs k
    · simp only [hk, ite_true, if_pos rfl]
      rfl

theorem encodeFileStr_head (f : BMFile) :
    ∃ t, (encodeFileStr f).toList = 'd' :: t := by
  rw [encodeFileStr, toList_append, toList_append, toList_append]
  exact ⟨_, rfl⟩

theorem encodeFileStr_ne_formData (f : BMFile) :
    (encodeFileStr f == "formData") = false := by
  apply beq_false_of_ne
  intro h
  obtain ⟨t, ht⟩ := encodeFileStr_head f
  rw [h] at ht
  injection ht with h1 h2
  exact absurd h1 (by decide)

theorem isEncodedFormData_encodeFields_false (fs : List (String × Value))
    (hdt : (match jsLookup fs "dataType" with
            | some (.vstr s) => !(s == "formData")
            | _ => true) = true) :
    isEncodedFormData (.vobj (encodeValueFields fs)) = false := by
  rw [isEncodedFormData]
  rw [jsLookup_encodeValueFields]
  cases hl : jsLookup fs "dataType" with
  | none => rfl
  | some v =>
    rw [hl] at hdt
    cases v with
    | vnull => rfl
    | vbool b => rfl
    | vnum n => rfl
    | vstr s =>
      have hs : (s == "formData") = false := by
        rw [Bool.not_eq_true'] at hdt
        exact hdt
      show ((s == "formData") && _) = false
      rw [hs]
      rfl
    | vfile f =>
      show ((encodeFileStr f == "formData") && _) = false
      rw [encodeFileStr_ne_formData f]
      rfl
    | vform es => rfl
    | varr xs => rfl
    | vobj fs2 => rfl

mutual

theorem roundTripAux : ∀ v : Value, supportedB v = true →
    decodeNestedFormData (encodeNestedFormData v) = .ok (roundTripImage v)
  | .vnull, _ => rfl
  | .vbool _, _ => rfl
  | .vnum _, _ => rfl
  | .vstr s, h => by
    rw [supportedB, Bool.not_eq_true'] at h
    have henc : encodeNestedFormData (.vstr s) = .vstr s := rfl
    rw [henc, decodeNestedFormData]
    cases hd : decodeFile s "unknown-filename" with
    | ok f => rw [hd] at h; simp [exceptIsOk] at h
    | error e => rfl
  | .vfile f, h => by
    rw [supportedB] at h
    obtain ⟨h1, h2, h3⟩ := goodFileB_spec f h
    have henc : encodeNestedFormData (.vfile f) = .vstr (encodeFileStr f) :=
      rfl
    rw [henc, decodeNestedFormData]
    rw [decodeFile_encodeFileStr f "unknown-filename" h1 h2 h3]
    rfl
  | .vform entries, h => by
    rw [supportedB, Bool.and_eq_true] at h
    obtain ⟨hnd, hfiles⟩ := h
    have henc : encodeNestedFormData (.vform entries) =
        encodeFormData entries := rfl
    rw [henc]
    have hfiles2 : ∀ p ∈ entries, ∀ f, p.2 = FormVal.ffile f →
        goodFileB f = true := by
      intro p hp f hf
      have hall := List.all_eq_true.mp hfiles p hp
      rw [hf] at hall
      exact hall
    rw [decodeNested_encodeFormData entries hnd hfiles2]
    rfl
  | .varr xs, h => by
    rw [supportedB] at h
    have henc : encodeNestedFormData (.varr xs) =
        .varr (encodeValueList xs) := rfl
    rw [henc, decodeNestedFormData]
    simp only [show isEncodedFormData (.varr (encodeValueList xs)) = false
      from rfl, Bool.false_eq_true, if_false]
    rw [roundTripAuxList xs h]
    rfl
  | .vobj fs, h => by
    rw [supportedB, Bool.and_eq_true, Bool.and_eq_true] at h
    obtain ⟨⟨hnd, hdt⟩, hsup⟩ := h
    have henc : encodeNestedFormData (.vobj fs) =
        .vobj (encodeValueFields fs) := rfl
    rw [henc, decodeNestedFormData]
    rw [isEncodedFormData_encodeFields_false fs hdt]
    simp only [Bool.false_eq_true, if_false]
    rw [roundTripAuxFields fs hsup]
    rfl

theorem roundTripAuxList : ∀ xs : List Value, supportedList xs = true →
    decodeValueList (encodeValueList xs) = .ok (roundTripImageList xs)
  | [], _ => rfl
  | x :: xs, h => by
    rw [supportedList, Bool.and_eq_true] at h
    obtain ⟨hx, hxs⟩ := h
    rw [encodeValueList, decodeValueList, roundTripAux x hx,
      roundTripAuxList xs hxs]
    rfl

theorem roundTripAuxFields : ∀ fs : List (String × Value),
    supportedFields fs = true →
    decodeValueFields (encodeValueFields fs) = .ok (roundTripImageFields fs)
  | [], _ => rfl
  | (k, v) :: fs, h => by
    rw [supportedFields, Bool.and_eq_true] at h
    obtain ⟨hv, hfs⟩ := h
    rw [encodeValueFields, decodeValueFields, roundTripAux v hv,
      roundTripAuxFields fs hfs]
    rfl

end

/-! ## Claim C1: codec round trip -/

/-- C1 (amended): for every supported payload (JSON-safe scalars, strings
not parseable as data URLs, non-empty blobs with delimiter-free MIME
types, form containers of those, nested arrays/objects not mimicking the
codec's own encoded shape), decode-after-encode succeeds and returns the
payload with all field values, blob bytes and MIME types preserved — but
not unchanged: every standalone blob comes back renamed
`"unknown-filename"`, and every form container comes back with its text
entries first (in entry order) followed by its blob entries (in entry
order), because the async encoder assigns text items synchronously and
each file item only after its awaited content resolves. Blob names are
preserved only inside form containers. -/
theorem C1_roundtrip (v : Value) (h : supportedB v = true) :
    decodeNestedFormData (encodeNestedFormData v) = .ok (roundTripImage v) :=
  roundTripAux v h

/-- Counterexample to C1 as stated, in two parts. First, a standalone
blob named `"a.txt"` round-trips to a blob named `"unknown-filename"` —
bytes and MIME type survive, the name does not. Second, a form container
whose blob entry precedes its text entry round-trips with the two
entries swapped (text first), because the encoder assigns text items
synchronously and file items only after their content promises resolve.
So `decode(encode(v))` is not observably equivalent to `v`. -/
theorem C1_counterexample :
    (encodeNestedFormData (.vfile ⟨"a.txt", "text/plain", [104, 105]⟩) =
      .vstr "data:text/plain;base64,aGk=" ∧
     decodeNestedFormData (.vstr "data:text/plain;base64,aGk=") =
      .ok (.vfile ⟨"unknown-filename", "text/plain", [104, 105]⟩) ∧
     ¬("unknown-filename" : String) = "a.txt") ∧
    (decodeNestedFormData (encodeNestedFormData
        (.vform [("b", .ffile ⟨"f", "a", [0]⟩), ("a", .ftext "t")])) =
      .ok (.vform [("a", .ftext "t"), ("b", .ffile ⟨"f", "a", [0]⟩)]) ∧
     ¬([("a", FormVal.ftext "t"), ("b", FormVal.ffile ⟨"f", "a", [0]⟩)] =
        [("b", FormVal.ffile ⟨"f", "a", [0]⟩), ("a", FormVal.ftext "t")])) :=
  ⟨⟨rfl, rfl, by decide⟩, ⟨rfl, by decide⟩⟩

/-- Witness for C1 (amended) on a composite concrete payload. -/
theorem C1_witness :
    supportedB c1Witness = true ∧
    decodeNestedFormData (encodeNestedFormData c1Witness) =
      .ok (roundTripImage c1Witness) :=
  ⟨rfl, C1_roundtrip c1Witness rfl⟩

/-! ## Claim C9: self-message suppression -/

/-- C9: for every entity and every incoming envelope whose `from` equals
the entity's own id, no subscribed handler is invoked (and nothing else
happens), in every state. -/
theorem C9_self_suppression (w : World) (t : Nat) (d : MessageData)
    (h : d.fromId = (w.entity t).eid) :
    handleIncomingMessage w t d = (w, HandleOut.none) := by
  simp [handleIncomingMessage, h]

/-- Witness for C9 at a concrete state and envelope. -/
theorem C9_witness :
    selfResponse.fromId = (pendingWorld.entity 0).eid ∧
    handleIncomingMessage pendingWorld 0 selfResponse =
      (pendingWorld, HandleOut.none) :=
  ⟨rfl, C9_self_suppression pendingWorld 0 selfResponse rfl⟩

/-! ## Claim C2: send after destroy -/

/-- C2 (amended): `sendMessage` on an entity rejects with
`EntityDestroyed` when, at send time, no entity is registered under the
sending object's id (the check in the source is by id, not by object
identity). -/
theorem C2_send_after_destroy (w : World) (t : Nat) (targetId : String)
    (message : Value) (h : getById w (w.entity t).eid = none) :
    (sendMessage w t targetId message).2.rejected = true ∧
    (sendMessage w t targetId message).2.error = some .entityDestroyed := by
  simp [sendMessage, h]

/-- Counterexample to C2 as stated: entity object 0 of `recreatedWorld`
has been destroyed (the registry maps `"a"` to the fresh object 1), yet
`sendMessage` on object 0 does not reject, because the source checks only
that some entity is registered under the id. -/
theorem C2_counterexample :
    recreatedWorld.registry = [("a", 1)] ∧
    (recreatedWorld.entity 0).eid = "a" ∧
    (sendMessage recreatedWorld 0 "b" (.vstr "x")).2.rejected = false ∧
    (sendMessage recreatedWorld 0 "b" (.vstr "x")).2.error = none :=
  ⟨rfl, rfl, rfl, rfl⟩

/-- Witness for C2 (amended) at a concrete destroyed entity. -/
theorem C2_witness :
    getById destroyedWorld (destroyedWorld.entity 0).eid = none ∧
    ((sendMessage destroyedWorld 0 "b" (.vstr "x")).2.rejected = true ∧
     (sendMessage destroyedWorld 0 "b" (.vstr "x")).2.error =
       some .entityDestroyed) :=
  ⟨rfl, C2_send_after_destroy destroyedWorld 0 "b" (.vstr "x") rfl⟩

/-! ## Claim C6: malformed blob strings pass through decode -/

/-- C6: decoding any string that `decodeFile` rejects returns the
original string unchanged; the failure does not propagate. -/
theorem C6_malformed_string_passthrough (s : String)
    (h : exceptIsOk (decodeFile s "unknown-filename") = false) :
    decodeNestedFormData (.vstr s) = .ok (.vstr s) := by
  rw [decodeNestedFormData]
  cases hd : decodeFile s "unknown-filename" with
  | error e => rfl
  | ok f => rw [hd] at h; simp [exceptIsOk] at h

/-- Witness for C6 on a plain string. -/
theorem C6_witness :
    exceptIsOk (decodeFile "hello" "unknown-filename") = false ∧
    decodeNestedFormData (.vstr "hello") = .ok (.vstr "hello") :=
  ⟨rfl, C6_malformed_string_passthrough "hello" rfl⟩

/-! ## Claim C3: response correlation -/

/-- C3 (amended): for an incoming response envelope from another entity
whose payload decodes: if its correlation id is pending, the entry is
resolved with the decoded payload and removed, so a second delivery of
the same response has no effect; if its correlation id is not pending,
nothing happens at all. -/
theorem C3_response_correlation (w : World) (t : Nat) (d : MessageData)
    (dv : Value) (r : Nat) (hk : d.kind = "response")
    (hf : d.fromId ≠ (w.entity t).eid) (ht : t < w.entities.length) :
    ((w.entity t).pendingRequests.lookup d.messageId = some r →
      decodeNestedFormData d.payload = .ok dv →
      (handleIncomingMessage w t d).2 = ⟨[], [(r, dv)]⟩ ∧
      ((handleIncomingMessage w t d).1.entity t).pendingRequests =
        (w.entity t).pendingRequests.filter (fun p => !(p.1 == d.messageId)) ∧
      handleIncomingMessage (handleIncomingMessage w t d).1 t d =
        ((handleIncomingMessage w t d).1, HandleOut.none)) ∧
    ((w.entity t).pendingRequests.lookup d.messageId = none →
      handleIncomingMessage w t d = (w, HandleOut.none)) := by
  have hbf : (d.fromId == (w.entity t).eid) = false := beq_false_of_ne hf
  have hbk : (d.kind == "request") = false := by rw [hk]; rfl
  have hbk2 : (d.kind == "response") = true := by rw [hk]; rfl
  constructor
  · intro hlook hdec
    have h1 : handleIncomingMessage w t d = (w.setEntity t { w.entity t with pendingRequests := (w.entity t).pendingRequests.filter (fun p => !(p.1 == d.messageId)) }, ⟨[], [(r, dv)]⟩) := by
      rw [handleIncomingMessage]
      simp only [hbf, hbk, hbk2, hlook, hdec, Bool.false_eq_true, if_false, if_pos rfl, ite_true]
    have hent : ((handleIncomingMessage w t d).1.entity t) = { w.entity t with pendingRequests := (w.entity t).pendingRequests.filter (fun p => !(p.1 == d.messageId)) } := by
      rw [h1]
      exact entity_setEntity _ _ _ ht
    refine ⟨by rw [h1], by rw [hent], ?_⟩
    rw [handleIncomingMessage]
    simp only [hent, hbf, hbk, hbk2, Bool.false_eq_true, if_false, if_pos rfl, ite_true, lookup_filter_self_none]
  · intro hlook
    rw [handleIncomingMessage]
    simp only [hbf, hbk, hbk2, hlook, Bool.false_eq_true, if_false, if_pos rfl, ite_true]

/-- Counterexample to C3 as stated: `pendingWorld`'s entity holds the
pending correlation id `"m1"`, and `selfResponse` is a response envelope
carrying exactly that id — yet processing it resolves nothing and leaves
the pending entry in place, because its `from` equals the receiving
entity's own id and the self-message guard fires first. -/
theorem C3_counterexample :
    (pendingWorld.entity 0).pendingRequests.lookup selfResponse.messageId =
      some 5 ∧
    selfResponse.kind = "response" ∧
    handleIncomingMessage pendingWorld 0 selfResponse =
      (pendingWorld, HandleOut.none) :=
  ⟨rfl, rfl, rfl⟩

/-- Witness for C3 (amended) on a concrete pending request. -/
theorem C3_witness :
    (handleIncomingMessage pendingWorld 0 otherResponse).2 =
      ⟨[], [(5, .vstr "x")]⟩ ∧
    ((handleIncomingMessage pendingWorld 0 otherResponse).1.entity 0).pendingRequests =
      (pendingWorld.entity 0).pendingRequests.filter (fun p => !(p.1 == otherResponse.messageId)) ∧
    handleIncomingMessage (handleIncomingMessage pendingWorld 0 otherResponse).1 0 otherResponse =
      ((handleIncomingMessage pendingWorld 0 otherResponse).1, HandleOut.none) :=
  (C3_response_correlation pendingWorld 0 otherResponse (.vstr "x") 5 rfl
    (by decide) (by decide)).1 rfl rfl

/-! ## Claim C7: request dispatch invokes all handlers in order -/

/-- C7 (amended): an incoming request accepted by an entity whose payload
decodes successfully invokes every subscribed handler, in subscription
order, each with the same sender and decoded payload; subscribing appends
to the ordered handler list. If decoding throws, no handler runs (see the
counterexample). -/
theorem C7_request_dispatch (w : World) (t : Nat) (d : MessageData)
    (dv : Value) (hnew : Nat) (hk : d.kind = "request")
    (hf : d.fromId ≠ (w.entity t).eid)
    (hdec : decodeNestedFormData d.payload = .ok dv)
    (ht : t < w.entities.length) :
    (handleIncomingMessage w t d).2.invocations =
      (w.entity t).handlers.map (fun h => ⟨h, d.fromId, dv⟩) ∧
    ((subscribeMessage w t hnew).entity t).handlers =
      (w.entity t).handlers ++ [hnew] := by
  constructor
  · have hbf : (d.fromId == (w.entity t).eid) = false := beq_false_of_ne hf
    have hbk : (d.kind == "request") = true := by rw [hk]; rfl
    rw [handleIncomingMessage]
    simp [hbf, hbk, hdec]
  · rw [subscribeMessage, entity_setEntity _ _ _ ht]

/-- Counterexample to C7 as stated: `receiverWorld` has one subscribed
handler and `malformedRequest` is an accepted request (valid envelope,
foreign sender), but its payload makes `decodeNestedFormData` throw, so
zero handlers are invoked. -/
theorem C7_counterexample :
    (receiverWorld.entity 0).handlers = [3] ∧
    malformedRequest.kind = "request" ∧
    malformedRequest.fromId ≠ (receiverWorld.entity 0).eid ∧
    exceptIsOk (decodeNestedFormData malformedRequest.payload) = false ∧
    (handleIncomingMessage receiverWorld 0 malformedRequest).2.invocations =
      [] :=
  ⟨rfl, rfl, by decide, rfl, rfl⟩

/-- Witness for C7 (amended) on a concrete request. -/
theorem C7_witness :
    (handleIncomingMessage receiverWorld 0 goodRequest).2.invocations =
      (receiverWorld.entity 0).handlers.map
        (fun h => ⟨h, goodRequest.fromId, .vstr "hello"⟩) ∧
    ((subscribeMessage receiverWorld 0 9).entity 0).handlers =
      (receiverWorld.entity 0).handlers ++ [9] :=
  C7_request_dispatch receiverWorld 0 goodRequest (.vstr "hello") 9 rfl
    (by decide) rfl (by decide)

/-! ## Claim C10: sendMessage is not atomic on the destroyed path -/

/-- C10: when no entity is registered under the sender's id, the promise
is rejected — yet a pending entry is still registered under a fresh
correlation id and the encoded request envelope is still broadcast,
exactly as a successful send would do. -/
theorem C10_send_not_atomic (w : World) (t : Nat) (targetId : String)
    (message : Value) (hfresh : uuidFresh w = true)
    (ht : t < w.entities.length)
    (h : getById w (w.entity t).eid = none) :
    (sendMessage w t targetId message).2.rejected = true ∧
    ((sendMessage w t targetId message).1.entity t).pendingRequests =
      (w.entity t).pendingRequests ++
        [(uuidString w.nextUuid, w.nextResolver)] ∧
    (∀ p ∈ (w.entity t).pendingRequests, ¬(p.1 = uuidString w.nextUuid)) ∧
    (sendMessage w t targetId message).1.sent = w.sent ++
      [{ via := "bom-message", kind := "request",
         messageId := uuidString w.nextUuid, fromId := (w.entity t).eid,
         toId := targetId, payload := encodeNestedFormData message,
         timestamp := w.now }] := by
  have hnotmem : ∀ p ∈ (w.entity t).pendingRequests,
      ¬(p.1 = uuidString w.nextUuid) := by
    intro p hp he
    have hall := List.all_eq_true.mp hfresh _ (entity_mem w t ht)
    have hlt := List.all_eq_true.mp hall _ hp
    rw [he, uuidString_length] at hlt
    simp at hlt
  have hset : jsMapSet (w.entity t).pendingRequests (uuidString w.nextUuid) w.nextResolver = (w.entity t).pendingRequests ++ [(uuidString w.nextUuid, w.nextResolver)] :=
    jsMapSet_append_of_fresh _ _ _ hnotmem
  have hstep : (sendMessage w t targetId message).1.entity t = (w.setEntity t { w.entity t with pendingRequests := jsMapSet (w.entity t).pendingRequests (uuidString w.nextUuid) w.nextResolver }).entity t := rfl
  refine ⟨by simp [sendMessage, h], ?_, hnotmem, by simp [sendMessage]⟩
  rw [hstep, entity_setEntity _ _ _ ht]
  simp only [hset]

/-- Witness for C10 at a concrete destroyed entity. -/
theorem C10_witness :
    uuidFresh destroyedWorld = true ∧
    0 < destroyedWorld.entities.length ∧
    getById destroyedWorld (destroyedWorld.entity 0).eid = none ∧
    ((sendMessage destroyedWorld 0 "b" (.vstr "x")).2.rejected = true ∧
     ((sendMessage destroyedWorld 0 "b" (.vstr "x")).1.entity 0).pendingRequests =
       (destroyedWorld.entity 0).pendingRequests ++
         [(uuidString destroyedWorld.nextUuid, destroyedWorld.nextResolver)] ∧
     (∀ p ∈ (destroyedWorld.entity 0).pendingRequests,
       ¬(p.1 = uuidString destroyedWorld.nextUuid)) ∧
     (sendMessage destroyedWorld 0 "b" (.vstr "x")).1.sent =
       destroyedWorld.sent ++
       [{ via := "bom-message", kind := "request",
          messageId := uuidString destroyedWorld.nextUuid,
          fromId := (destroyedWorld.entity 0).eid, toId := "b",
          payload := encodeNestedFormData (.vstr "x"),
          timestamp := destroyedWorld.now }]) :=
  ⟨rfl, by decide, rfl,
   C10_send_not_atomic destroyedWorld 0 "b" (.vstr "x") rfl (by decide) rfl⟩

/-! ## Claim C4: the dispatch listener drops noise silently -/

/-- C4: a raw event that fails envelope validation, or whose `from` is an
ignored source id, or whose `to` has no registered entity, is dropped
with no handler invocation, no state change, and no error (the model's
dispatcher is a total function into an unchanged state). -/
theorem C4_dispatch_drops (w : World) (event : Value)
    (h : eventEnvelope event = none ∨
      ∃ d, eventEnvelope event = some d ∧
        (w.ignoredIds.contains d.fromId = true ∨ getById w d.toId = none)) :
    onWindowMessage w event = (w, HandleOut.none) := by
  rcases h with h | ⟨d, hdd, hcase⟩
  · rw [onWindowMessage, h]
  · rw [onWindowMessage, hdd]
    show (if w.ignoredIds.contains d.fromId = true then (w, HandleOut.none) else match getById w d.toId with | some t => handleIncomingMessage w t d | none => (w, HandleOut.none)) = (w, HandleOut.none)
    rcases hcase with hig | hto
    · rw [if_pos hig]
    · by_cases hig : w.ignoredIds.contains d.fromId = true
      · rw [if_pos hig]
      · rw [if_neg hig, hto]

/-- Witness for C4: an event that is not even an object, and a valid
envelope addressed to an unregistered id, are both dropped. -/
theorem C4_witness :
    eventEnvelope (.vstr "noise") = none ∧
    onWindowMessage pendingWorld (.vstr "noise") = (pendingWorld, HandleOut.none) ∧
    (eventEnvelope strayEvent = some (readMessageData strayData) ∧
     getById pendingWorld (readMessageData strayData).toId = none) ∧
    onWindowMessage pendingWorld strayEvent = (pendingWorld, HandleOut.none) := by
  refine ⟨rfl, C4_dispatch_drops pendingWorld (.vstr "noise") (Or.inl rfl),
    ⟨rfl, rfl⟩, C4_dispatch_drops pendingWorld strayEvent
      (Or.inr ⟨readMessageData strayData, rfl, Or.inr rfl⟩)⟩

/-! ## Claim C5: construction is get-or-create, getById is exact -/

/-- C5: constructing an entity with an unregistered id registers a fresh
instance that `getById` returns exactly; constructing with a registered
id returns the exact existing instance when `errorOnDuplicate` is false
and fails with `DuplicateEntityId` when it is true; and constructing
under a different id leaves `getById` of this id unchanged. -/
theorem C5_construction (w : World) (id id2 : String) (dup dup2 : Bool) :
    (w.registry.lookup id = none →
      (mkEntity w id dup).2 = .ok w.entities.length ∧
      getById (mkEntity w id dup).1 id = some w.entities.length ∧
      (mkEntity w id dup).1.entity w.entities.length = ⟨id, [], []⟩) ∧
    (∀ t, w.registry.lookup id = some t →
      (dup = false → mkEntity w id dup = (w, .ok t)) ∧
      (dup = true → mkEntity w id dup = (w, .error (.duplicateEntityId id)))) ∧
    (id2 ≠ id → getById (mkEntity w id2 dup2).1 id = getById w id) := by
  refine ⟨?_, ?_, ?_⟩
  · intro h
    have hm : mkEntity w id dup = ({ w with entities := w.entities ++ [⟨id, [], []⟩], registry := jsMapSet w.registry id w.entities.length }, .ok w.entities.length) := by
      rw [mkEntity, h]
    refine ⟨by rw [hm], ?_, ?_⟩
    · rw [hm]
      show (jsMapSet w.registry id w.entities.length).lookup id = _
      rw [jsMapSet_append_of_fresh _ _ _ (lookup_none_not_mem _ _ h)]
      exact lookup_append_self _ _ _ h
    · rw [hm]
      show (w.entities ++ [(⟨id, [], []⟩ : EntityState)]).getD w.entities.length default = _
      exact getD_append_length _ _ _
  · intro t ht
    constructor
    · intro hdup
      subst hdup
      rw [mkEntity, ht]
      rfl
    · intro hdup
      subst hdup
      rw [mkEntity, ht]
      rfl
  · intro hne
    cases h2 : w.registry.lookup id2 with
    | some t =>
      rw [mkEntity, h2]
      cases dup2 <;> rfl
    | none =>
      rw [mkEntity, h2]
      show (jsMapSet w.registry id2 w.entities.length).lookup id = _
      exact lookup_jsMapSet_ne _ _ _ _ (Ne.symm hne)

/-- Witness for C5: fresh construction, get-or-create aliasing, and the
duplicate error, at concrete states. -/
theorem C5_witness :
    ((mkEntity (initRegistry initialWorld []) "x" false).2 = .ok 0 ∧
     getById (mkEntity (initRegistry initialWorld []) "x" false).1 "x" = some 0 ∧
     (mkEntity (initRegistry initialWorld []) "x" false).1.entity 0 = ⟨"x", [], []⟩) ∧
    mkEntity recreatedWorld "a" false = (recreatedWorld, .ok 1) ∧
    mkEntity recreatedWorld "a" true = (recreatedWorld, .error (.duplicateEntityId "a")) :=
  ⟨(C5_construction (initRegistry initialWorld []) "x" "y" false false).1 rfl,
   ((C5_construction recreatedWorld "a" "y" false false).2.1 1 rfl).1 rfl,
   ((C5_construction recreatedWorld "a" "y" true false).2.1 1 rfl).2 rfl⟩

/-! ## Claim C8: registry teardown and reinitialization -/

/-- C8: `Registry.destroy` detaches the listener, clears the entity map
and ignored-source set, and resets the initialized flag; on the pristine
state it is a no-op; and after destroy-then-init the entity set is empty,
so an id that existed before the destroy resolves to nothing and
constructing it yields a fresh instance distinct from the pre-destroy
one. -/
theorem C8_registry_teardown (w : World) (ids : List String) (id : String)
    (t0 : Nat) (dup : Bool) :
    (destroyRegistry w).registry = [] ∧
    (destroyRegistry w).ignoredIds = [] ∧
    (destroyRegistry w).isInitialized = false ∧
    (destroyRegistry w).listenerAttached = false ∧
    destroyRegistry initialWorld = initialWorld ∧
    getById (initRegistry (destroyRegistry w) ids) id = none ∧
    (getById w id = some t0 → t0 < w.entities.length →
      (mkEntity (initRegistry (destroyRegistry w) ids) id dup).2 = .ok w.entities.length ∧
      w.entities.length ≠ t0) := by
  refine ⟨rfl, rfl, rfl, rfl, rfl, rfl, ?_⟩
  intro _ ht
  exact ⟨rfl, by omega⟩

/-- Witness for C8: the id `"a"` existed before the teardown of
`recreatedWorld`; after destroy-then-init it is unregistered and is
reconstructed as a fresh instance. -/
theorem C8_witness :
    getById recreatedWorld "a" = some 1 ∧
    getById (initRegistry (destroyRegistry recreatedWorld) []) "a" = none ∧
    ((mkEntity (initRegistry (destroyRegistry recreatedWorld) []) "a" false).2 = .ok recreatedWorld.entities.length ∧
     recreatedWorld.entities.length ≠ 1) :=
  ⟨rfl, (C8_registry_teardown recreatedWorld [] "a" 1 false).2.2.2.2.2.1,
   (C8_registry_teardown recreatedWorld [] "a" 1 false).2.2.2.2.2.2 rfl
     (by decide)⟩

end BomMessage
